import Mathlib

/-!
Verification of the Reaktoro chemical-state / partition / kinetic-solver core.

The C++ source is shallowly embedded: `Eigen::Vector` becomes `List ℚ`,
`double` becomes `ℚ`, and every C++ function that can raise (via `Assert` /
`RaiseError`) becomes a Lean function returning `Except Err _`, where the
error is produced before any state is built (mirroring the C++ discipline of
asserting before writing any field).  External collaborators (the activity /
volume property models, the unit-conversion utility, `log10`) are modelled as
explicit function parameters or function-valued fields, since their internals
are out of scope of the specification.
-/

namespace Reaktoro

/-- Error taxonomy of the specification (§7): validation errors (negative
amount/scalar/volume, non-positive T or P), dimension mismatches, name-lookup
failures, unit errors, unsupported extract expressions, and out-of-range raw
indexing (the embedding of C++ undefined behaviour on raw `operator[]`). -/
inductive Err where
  | validation
  | dimension
  | lookup
  | unitErr
  | unsupported
  | outOfRange
deriving DecidableEq

/-- A chemical species: its name and molar mass (kg/mol). -/
structure Species where
  name : String
  molarMass : ℚ
deriving DecidableEq

/-- A phase: its name and the contiguous range of species indices it owns
(first species index and number of species), as used by
`ChemicalState::scaleSpeciesAmountsInPhase`. -/
structure Phase where
  name : String
  firstSpecies : Nat
  numSpecies : Nat
deriving DecidableEq

/-- Modelled from the spec: the external, immutable Chemical System (§3) —
ordered species/element/phase lists, the formula matrix (one row per element,
one column per species), and the property evaluators `activities` and
`phaseVolumes` as opaque functions of (T, P, n).  The C++ class
`ChemicalSystem` is not among the provided sources; only its interface used by
`ChemicalState.cpp` is modelled here. -/
structure ChemicalSystem where
  species : List Species
  elements : List String
  formulaMatrix : List (List ℚ)
  phases : List Phase
  activities : ℚ → ℚ → List ℚ → List ℚ
  phaseVolumes : ℚ → ℚ → List ℚ → List ℚ

/-- Number of species of the system. -/
def ChemicalSystem.numSpecies (sys : ChemicalSystem) : Nat :=
  sys.species.length

/-- Number of elements of the system. -/
def ChemicalSystem.numElements (sys : ChemicalSystem) : Nat :=
  sys.elements.length

/-- Number of phases of the system. -/
def ChemicalSystem.numPhases (sys : ChemicalSystem) : Nat :=
  sys.phases.length

/-- Modelled from the spec: `ChemicalSystem::indexSpecies(name)` — index of
the species with the given name, or the number of species when there is no
such species (lookup without validation). -/
def ChemicalSystem.indexSpecies (sys : ChemicalSystem) (name : String) : Nat :=
  sys.species.findIdx (fun s => s.name = name)

/-- Modelled from the spec: `ChemicalSystem::indexElement(name)`. -/
def ChemicalSystem.indexElement (sys : ChemicalSystem) (name : String) : Nat :=
  sys.elements.findIdx (fun e => e = name)

/-- Modelled from the spec: `ChemicalSystem::indexPhase(name)`. -/
def ChemicalSystem.indexPhase (sys : ChemicalSystem) (name : String) : Nat :=
  sys.phases.findIdx (fun p => p.name = name)

/-- Dot product of two coefficient vectors. -/
def dot (a b : List ℚ) : ℚ :=
  (List.zipWith (· * ·) a b).sum

/-- The contiguous segment `[start, start+len)` of a vector. -/
def segment (l : List ℚ) (start len : Nat) : List ℚ :=
  (l.drop start).take len

/-- Modelled from the spec: `ChemicalSystem::elementAmount(ielement, n)` —
the linear contraction of the formula-matrix row of the element against the
amount vector n (§4.2). -/
def ChemicalSystem.elementAmount (sys : ChemicalSystem) (ielement : Nat) (n : List ℚ) :
    Except Err ℚ :=
  match sys.formulaMatrix[ielement]? with
  | some row => .ok (dot row n)
  | none => .error .outOfRange

/-- Modelled from the spec: `ChemicalSystem::elementAmountInPhase` — the same
contraction restricted to the species range of one phase. -/
def ChemicalSystem.elementAmountInPhase (sys : ChemicalSystem) (ielement iphase : Nat)
    (n : List ℚ) : Except Err ℚ :=
  match sys.formulaMatrix[ielement]?, sys.phases[iphase]? with
  | some row, some ph =>
      .ok (dot (segment row ph.firstSpecies ph.numSpecies) (segment n ph.firstSpecies ph.numSpecies))
  | _, _ => .error .outOfRange

/-- The state container of `ChemicalState.cpp`: temperature T (K), pressure
P (Pa), molar amounts n, element-potential multipliers y, species-potential
multipliers z, bound to one chemical system.  Defaults as in
`ChemicalState::Impl`. -/
structure ChemicalState where
  system : ChemicalSystem
  T : ℚ := 298.15
  P : ℚ := 100000
  n : List ℚ
  y : List ℚ
  z : List ℚ

/-- `ChemicalState::ChemicalState(const ChemicalSystem&)`: amounts and
multipliers zero-initialized, default T and P. -/
def ChemicalState.ofSystem (sys : ChemicalSystem) : ChemicalState :=
  { system := sys
    T := 298.15
    P := 100000
    n := List.replicate sys.numSpecies 0
    y := List.replicate sys.numElements 0
    z := List.replicate sys.numSpecies 0 }

/-- `ChemicalState::setTemperature(double)`: asserts `val > 0` before writing. -/
def ChemicalState.setTemperature (st : ChemicalState) (val : ℚ) : Except Err ChemicalState :=
  if 0 < val then .ok { st with T := val } else .error .validation

/-- `ChemicalState::setPressure(double)`: asserts `val > 0` before writing. -/
def ChemicalState.setPressure (st : ChemicalState) (val : ℚ) : Except Err ChemicalState :=
  if 0 < val then .ok { st with P := val } else .error .validation

/-- `ChemicalState::setSpeciesAmounts(double)`: asserts `val ≥ 0`, then fills
every entry of n with `val`. -/
def ChemicalState.setSpeciesAmountsScalar (st : ChemicalState) (val : ℚ) :
    Except Err ChemicalState :=
  if 0 ≤ val then .ok { st with n := st.n.map fun _ => val } else .error .validation

/-- `ChemicalState::setSpeciesAmounts(const Vector&)`: asserts only that the
dimension matches the number of species, then assigns the whole vector.
Note: no sign check is performed on the entries. -/
def ChemicalState.setSpeciesAmounts (st : ChemicalState) (v : List ℚ) :
    Except Err ChemicalState :=
  if v.length = st.system.numSpecies then .ok { st with n := v } else .error .dimension

/-- `rows(n, indices) = v`: write `v k` at position `indices k` for each k. -/
def setRows : List ℚ → List Nat → List ℚ → List ℚ
  | n, i :: is, x :: xs => setRows (n.set i x) is xs
  | n, _, _ => n

/-- `ChemicalState::setSpeciesAmounts(const Vector&, const Indices&)`: asserts
that the vector and index collections have equal length, then writes the
entries at the given indices.  No sign check is performed. -/
def ChemicalState.setSpeciesAmountsWithIndices (st : ChemicalState) (v : List ℚ)
    (indices : List Nat) : Except Err ChemicalState :=
  if v.length = indices.length then .ok { st with n := setRows st.n indices v }
  else .error .dimension

/-- `ChemicalState::setSpeciesAmount(Index, double)`: asserts `amount ≥ 0`,
then `index < numSpecies`, then writes one entry. -/
def ChemicalState.setSpeciesAmount (st : ChemicalState) (index : Nat) (amount : ℚ) :
    Except Err ChemicalState :=
  if amount < 0 then .error .validation
  else if st.system.numSpecies ≤ index then .error .validation
  else .ok { st with n := st.n.set index amount }

/-- `ChemicalState::setSpeciesAmount(std::string, double)`: name lookup with
error (`indexSpeciesWithError`), then delegates to the index overload. -/
def ChemicalState.setSpeciesAmountByName (st : ChemicalState) (name : String) (amount : ℚ) :
    Except Err ChemicalState :=
  let i := st.system.indexSpecies name
  if i < st.system.numSpecies then st.setSpeciesAmount i amount else .error .lookup

/-- `ChemicalState::setSpeciesAmount(Index, double, std::string units)`:
`units::convertible`/`units::convert` are external collaborators, passed as
the parameters `convertible` and `convert`.  Amount-convertible units delegate
to the mol overload; mass-convertible units convert to kg and divide by the
species' molar mass; anything else raises the unit error of
`errorNonAmountOrMassUnits`. -/
def ChemicalState.setSpeciesAmountWithUnits (st : ChemicalState)
    (convertible : String → String → Bool) (convert : ℚ → String → String → ℚ)
    (index : Nat) (amount : ℚ) (units : String) : Except Err ChemicalState :=
  if convertible units "mol" then st.setSpeciesAmount index (convert amount units "mol")
  else if convertible units "kg" then
    match st.system.species[index]? with
    | some sp => st.setSpeciesAmount index (convert amount units "kg" / sp.molarMass)
    | none => .error .outOfRange
  else .error .unitErr

/-- `ChemicalState::setElementPotentials`: direct assignment, no validation. -/
def ChemicalState.setElementPotentials (st : ChemicalState) (v : List ℚ) : ChemicalState :=
  { st with y := v }

/-- `ChemicalState::setSpeciesPotentials`: direct assignment, no validation. -/
def ChemicalState.setSpeciesPotentials (st : ChemicalState) (v : List ℚ) : ChemicalState :=
  { st with z := v }

/-- `ChemicalState::scaleSpeciesAmounts(double)`: asserts `scalar ≥ 0`, then
multiplies every entry of n by the scalar. -/
def ChemicalState.scaleSpeciesAmounts (st : ChemicalState) (scalar : ℚ) :
    Except Err ChemicalState :=
  if scalar < 0 then .error .validation
  else .ok { st with n := st.n.map (· * scalar) }

/-- Multiply the entries of the contiguous range `[start, start+len)` by `s`,
leaving the others unchanged (the loop body of `scaleSpeciesAmountsInPhase`). -/
def scaleSeg : List ℚ → Nat → Nat → ℚ → List ℚ
  | [], _, _, _ => []
  | x :: xs, 0, 0, _ => x :: xs
  | x :: xs, 0, len + 1, s => x * s :: scaleSeg xs 0 len s
  | x :: xs, start + 1, len, s => x :: scaleSeg xs start len s

/-- `ChemicalState::scaleSpeciesAmountsInPhase(Index, double)`: asserts
`scalar ≥ 0`, then `index < numPhases`, then scales the phase's contiguous
species range. -/
def ChemicalState.scaleSpeciesAmountsInPhase (st : ChemicalState) (index : Nat) (scalar : ℚ) :
    Except Err ChemicalState :=
  if scalar < 0 then .error .validation
  else if st.system.numPhases ≤ index then .error .validation
  else match st.system.phases[index]? with
    | some ph => .ok { st with n := scaleSeg st.n ph.firstSpecies ph.numSpecies scalar }
    | none => .error .outOfRange

/-- `ChemicalState::setVolume(double)`: asserts `volume ≥ 0`, computes the
per-phase volumes at the current (T,P,n), and rescales all amounts by
`volume / vtotal` (0 when the total volume is 0). -/
def ChemicalState.setVolume (st : ChemicalState) (volume : ℚ) : Except Err ChemicalState :=
  if volume < 0 then .error .validation
  else
    let v := st.system.phaseVolumes st.T st.P st.n
    let vtotal := v.sum
    let scalar := if vtotal ≠ 0 then volume / vtotal else 0
    st.scaleSpeciesAmounts scalar

/-- `ChemicalState::setPhaseVolume(Index, double)`: asserts `volume ≥ 0` and
`index < numPhases`, then rescales the phase's species range by
`volume / v[index]` (0 when that phase volume is 0). -/
def ChemicalState.setPhaseVolume (st : ChemicalState) (index : Nat) (volume : ℚ) :
    Except Err ChemicalState :=
  if volume < 0 then .error .validation
  else if st.system.numPhases ≤ index then .error .validation
  else
    let v := st.system.phaseVolumes st.T st.P st.n
    match v[index]? with
    | some vi => st.scaleSpeciesAmountsInPhase index (if vi ≠ 0 then volume / vi else 0)
    | none => .error .outOfRange

/-- `ChemicalState::speciesAmount(Index)`: asserts `index < numSpecies`, then
reads `n[index]`. -/
def ChemicalState.speciesAmount (st : ChemicalState) (index : Nat) : Except Err ℚ :=
  if st.system.numSpecies ≤ index then .error .validation
  else match st.n[index]? with
    | some x => .ok x
    | none => .error .outOfRange

/-- `ChemicalState::speciesAmount(std::string)`: lookup with error, then the
index overload. -/
def ChemicalState.speciesAmountByName (st : ChemicalState) (name : String) : Except Err ℚ :=
  let i := st.system.indexSpecies name
  if i < st.system.numSpecies then st.speciesAmount i else .error .lookup

/-- `ChemicalState::speciesAmount(std::string, std::string units)`: amount
converted from mol to the requested units via the external converter. -/
def ChemicalState.speciesAmountByNameWithUnits (st : ChemicalState)
    (convert : ℚ → String → String → ℚ) (name units : String) : Except Err ℚ :=
  (st.speciesAmountByName name).map fun x => convert x "mol" units

/-- `ChemicalState::elementAmounts()`: the formula matrix contracted against
the amount vector, one entry per element. -/
def ChemicalState.elementAmounts (st : ChemicalState) : List ℚ :=
  st.system.formulaMatrix.map fun row => dot row st.n

/-- `ChemicalState::elementAmount(std::string, units)`: element lookup with
error, contraction, unit conversion. -/
def ChemicalState.elementAmountByNameWithUnits (st : ChemicalState)
    (convert : ℚ → String → String → ℚ) (name units : String) : Except Err ℚ :=
  let i := st.system.indexElement name
  if i < st.system.numElements then
    (st.system.elementAmount i st.n).map fun x => convert x "mol" units
  else .error .lookup

/-- `ChemicalState::elementAmountInPhase(std::string, std::string, units)`:
element and phase lookups with error, restricted contraction, unit
conversion. -/
def ChemicalState.elementAmountInPhaseByNameWithUnits (st : ChemicalState)
    (convert : ℚ → String → String → ℚ) (element phase units : String) : Except Err ℚ :=
  let ie := st.system.indexElement element
  let ip := st.system.indexPhase phase
  if ie < st.system.numElements then
    if ip < st.system.numPhases then
      (st.system.elementAmountInPhase ie ip st.n).map fun x => convert x "mol" units
    else .error .lookup
  else .error .lookup

/-- `operator+(const ChemicalState&, const ChemicalState&)`: copy the left
operand and replace its amounts by the elementwise sum of both operands'
amounts via `setSpeciesAmounts`. -/
def addStates (l r : ChemicalState) : Except Err ChemicalState :=
  l.setSpeciesAmounts (List.zipWith (· + ·) l.n r.n)

/-- `operator*(double, const ChemicalState&)`: copy the state and scale its
amounts. -/
def smulState (scalar : ℚ) (st : ChemicalState) : Except Err ChemicalState :=
  st.scaleSpeciesAmounts scalar

/-- `operator*(const ChemicalState&, double)`: delegates to `scalar * state`. -/
def mulState (st : ChemicalState) (scalar : ℚ) : Except Err ChemicalState :=
  smulState scalar st

/-- Modelled from the spec: the tokenizer `split(str, delims)` of
`StringUtils` (not among the provided sources) — the maximal non-empty runs
of characters not in `delims`, in order. -/
def splitChars (delims : List Char) : List Char → List Char → List (List Char)
  | [], acc => if acc.isEmpty then [] else [acc.reverse]
  | c :: cs, acc =>
      if c ∈ delims then
        if acc.isEmpty then splitChars delims cs []
        else acc.reverse :: splitChars delims cs []
      else splitChars delims cs (c :: acc)

/-- String-level wrapper of `splitChars`. -/
def split (s delims : String) : List String :=
  (splitChars delims.data s.data []).map fun cs => String.mk cs

/-- The molar mass of water (kg/mol) from `WaterConstants.hpp`. -/
def waterMolarMass : ℚ := 0.018015268

/-- `extract(const ChemicalState&, std::string)`: the quantity query language.
The external unit converter and the base-10 logarithm of the math library are
passed as the parameters `convert` and `log10`.  Faithful to the source: the
`n`/`b`/`m` branches use the name lookups *with* error, while the `a` and
`pH` branches use `indexSpecies` without validation and index the activity
vector raw (out-of-range indexing is the `Err.outOfRange` branch). -/
def extract (convert : ℚ → String → String → ℚ) (log10 : ℚ → ℚ)
    (st : ChemicalState) (str : String) : Except Err ℚ :=
  let words := split str ":"
  match words with
  | [] => .error .outOfRange
  | quantity :: rest =>
    let units := rest.headD ""
    let a := st.system.activities st.T st.P st.n
    match quantity.data with
    | [] => .error .outOfRange
    | c :: _ =>
      if c = 'n' then
        let units := if units = "" then "mol" else units
        match (split quantity "[]").getLast? with
        | some species => st.speciesAmountByNameWithUnits convert species units
        | none => .error .outOfRange
      else if c = 'b' then
        let units := if units = "" then "mol" else units
        let names := split quantity "[]"
        match names[1]? with
        | none => .error .outOfRange
        | some element =>
          match names[2]? with
          | some phase => st.elementAmountInPhaseByNameWithUnits convert element phase units
          | none => st.elementAmountByNameWithUnits convert element units
      else if c = 'm' then
        let units := if units = "" then "molal" else units
        match (split quantity "[]").getLast? with
        | none => .error .outOfRange
        | some species => do
          let nH2O ← st.speciesAmountByName "H2O(l)"
          let ni ← st.speciesAmountByName species
          let mi := ni / (nH2O * waterMolarMass)
          pure (convert mi "molal" units)
      else if c = 'a' then
        match (split quantity "[]").getLast? with
        | none => .error .outOfRange
        | some species =>
          let index := st.system.indexSpecies species
          match a[index]? with
          | some ai => .ok ai
          | none => .error .outOfRange
      else if quantity = "pH" then
        let iH := st.system.indexSpecies "H+"
        match a[iH]? with
        | some aH => .ok (-(log10 aH))
        | none => .error .outOfRange
      else .error .unsupported

/-- The species partition of `Partition.cpp`: the three index collections. -/
structure Partition where
  equilibriumSpeciesIndices : List Nat
  kineticSpeciesIndices : List Nat
  inertSpeciesIndices : List Nat
deriving DecidableEq

/-- Modelled from the spec: `range(n)` of `SetUtils` (not among the provided
sources) — the indices `0, …, n-1`. -/
def range (n : Nat) : List Nat :=
  List.range n

/-- Modelled from the spec: `unify(a, b)` of `SetUtils` — the set union of
two index collections. -/
def unify (a b : List Nat) : List Nat :=
  a ++ b.filter fun x => !(a.contains x)

/-- Modelled from the spec: `difference(a, b)` of `SetUtils` — the elements
of `a` not in `b`. -/
def difference (a b : List Nat) : List Nat :=
  a.filter fun x => !(b.contains x)

/-- `Partition::allEquilibrium(system)`. -/
def Partition.allEquilibrium (sys : ChemicalSystem) : Partition :=
  ⟨range sys.numSpecies, [], []⟩

/-- `Partition::allKinetic(system)`. -/
def Partition.allKinetic (sys : ChemicalSystem) : Partition :=
  ⟨[], range sys.numSpecies, []⟩

/-- `Partition::allEquilibriumExcept(system, ikinetic, iinert)`: equilibrium
is all indices minus the union of the kinetic and inert collections, which
pass through unchanged. -/
def Partition.allEquilibriumExcept (sys : ChemicalSystem) (ikinetic iinert : List Nat) :
    Partition :=
  ⟨difference (range sys.numSpecies) (unify ikinetic iinert), ikinetic, iinert⟩

/-- `Partition::allKineticExcept(system, iequilibrium, iinert)`. -/
def Partition.allKineticExcept (sys : ChemicalSystem) (iequilibrium iinert : List Nat) :
    Partition :=
  ⟨iequilibrium, difference (range sys.numSpecies) (unify iequilibrium iinert), iinert⟩

/-- Modelled from the spec: the loop of `KineticSolver::solve(state, t0, t1,
dt)` (§4.3) — `KineticSolver.cpp` is not among the provided sources.  One
step of the engine is an opaque state transformer `stepFn state t dt`; the
loop repeatedly steps, clipping the final step to `min dt (t1 - t)` so the
reported end time never overshoots t1, until the accumulated time reaches t1.
`fuel` bounds the iteration count; `solve` supplies enough fuel for the whole
interval. -/
def solveLoop (stepFn : ChemicalState → ℚ → ℚ → ChemicalState) :
    Nat → ChemicalState → ℚ → ℚ → ℚ → ChemicalState × ℚ
  | 0, st, t, _, _ => (st, t)
  | fuel + 1, st, t, t1, dt =>
    if t1 ≤ t then (st, t)
    else
      let dtActual := min dt (t1 - t)
      solveLoop stepFn fuel (stepFn st t dtActual) (t + dtActual) t1 dt

/-- Modelled from the spec: `KineticSolver::solve(state, t0, t1, dt)` — runs
the stepping loop from t0 with seed step dt until t1 is reached. -/
def solve (stepFn : ChemicalState → ℚ → ℚ → ChemicalState) (st : ChemicalState)
    (t0 t1 dt : ℚ) : ChemicalState × ℚ :=
  solveLoop stepFn (⌈(t1 - t0) / dt⌉₊ + 1) st t0 t1 dt

/-- The componentwise non-negativity of the amount vector. -/
def NonnegAmounts (st : ChemicalState) : Prop :=
  ∀ x ∈ st.n, (0 : ℚ) ≤ x

/-- The state invariant of §3: positive temperature and pressure, and a
componentwise non-negative amount vector. -/
def StateInvariant (st : ChemicalState) : Prop :=
  0 < st.T ∧ 0 < st.P ∧ NonnegAmounts st

/-! ### Concrete fixtures for witnesses and counterexamples -/

/-- A one-species aqueous system used as a concrete test fixture. -/
def sys0 : ChemicalSystem :=
  { species := [⟨"H2O(l)", 0.018015268⟩]
    elements := ["H", "O"]
    formulaMatrix := [[2], [1]]
    phases := [⟨"Aqueous", 0, 1⟩]
    activities := fun _ _ _ => [1]
    phaseVolumes := fun _ _ _ => [1] }

/-- A concrete state over `sys0` holding one mole of water. -/
def st0 : ChemicalState :=
  { system := sys0, n := [1], y := [0, 0], z := [0] }

/-- A two-species system (water and H+) whose activity model returns a
correctly sized activity vector. -/
def sysH : ChemicalSystem :=
  { species := [⟨"H2O(l)", 0.018015268⟩, ⟨"H+", 0.001007⟩]
    elements := ["H", "O"]
    formulaMatrix := [[2, 1], [1, 0]]
    phases := [⟨"Aqueous", 0, 2⟩]
    activities := fun _ _ _ => [1, 1/10000000]
    phaseVolumes := fun _ _ _ => [1] }

/-- A concrete state over `sysH`. -/
def stH : ChemicalState :=
  { system := sysH, n := [1, 1/10000000], y := [0, 0], z := [0, 0] }

/-- A five-species system used to exercise the partition factories. -/
def sys5 : ChemicalSystem :=
  { species := [⟨"H2O(l)", 0.018015268⟩, ⟨"Na+", 0.022989⟩, ⟨"Cl-", 0.035453⟩,
      ⟨"NaCl(aq)", 0.058442⟩, ⟨"OH-", 0.017008⟩]
    elements := ["H", "O", "Na", "Cl"]
    formulaMatrix := [[2, 0, 0, 0, 1], [1, 0, 0, 0, 1], [0, 1, 0, 1, 0], [0, 0, 1, 1, 0]]
    phases := [⟨"Aqueous", 0, 5⟩]
    activities := fun _ _ _ => [1, 1, 1, 1, 1]
    phaseVolumes := fun _ _ _ => [1] }

/-- A trivial concrete unit-conversion model: identity conversion, with a
unit convertible exactly to itself. -/
def cv0 : ℚ → String → String → ℚ := fun x _ _ => x

/-- A trivial concrete convertibility test used with `cv0`. -/
def cb0 : String → String → Bool := fun u v => u = v

/-- A trivial concrete stand-in for the base-10 logarithm. -/
def lg0 : ℚ → ℚ := fun _ => 0

/-! ### Helper lemmas on non-negativity preservation -/

/-- Entries of `l.set i x` are entries of `l` or equal to `x`. -/
lemma nonneg_set {l : List ℚ} {i : Nat} {x : ℚ} (hl : ∀ a ∈ l, 0 ≤ a) (hx : 0 ≤ x) :
    ∀ a ∈ l.set i x, 0 ≤ a := by
  intro a ha
  rcases List.mem_or_eq_of_mem_set ha with h | h
  · exact hl a h
  · exact h ▸ hx

/-- `setRows` with no indices is the identity. -/
lemma setRows_nil_left (n v : List ℚ) : setRows n [] v = n := by simp [setRows]

/-- `setRows` with no values is the identity. -/
lemma setRows_nil_right (n : List ℚ) (is : List Nat) : setRows n is [] = n := by
  cases is <;> simp [setRows]

/-- The unfolding equation of `setRows` on two cons cells. -/
lemma setRows_cons (n : List ℚ) (i : Nat) (is : List Nat) (x : ℚ) (xs : List ℚ) :
    setRows n (i :: is) (x :: xs) = setRows (n.set i x) is xs := by simp [setRows]

/-- `setRows` preserves componentwise non-negativity when the written values
are non-negative. -/
lemma nonneg_setRows :
    ∀ (indices : List Nat) (v n : List ℚ), (∀ a ∈ n, 0 ≤ a) → (∀ a ∈ v, 0 ≤ a) →
      ∀ a ∈ setRows n indices v, 0 ≤ a := by
  intro indices
  induction indices with
  | nil => intro v n hn _ a ha; rw [setRows_nil_left] at ha; exact hn a ha
  | cons i is ih =>
    intro v n hn hv a ha
    cases v with
    | nil => rw [setRows_nil_right] at ha; exact hn a ha
    | cons x xs =>
      rw [setRows_cons] at ha
      exact ih xs (n.set i x) (nonneg_set hn (hv x (by simp)))
        (fun b hb => hv b (by simp [hb])) a ha

/-- `scaleSeg` preserves componentwise non-negativity for a non-negative
scale factor. -/
lemma nonneg_scaleSeg {s : ℚ} (hs : 0 ≤ s) :
    ∀ (n : List ℚ) (start len : Nat), (∀ a ∈ n, 0 ≤ a) →
      ∀ a ∈ scaleSeg n start len s, 0 ≤ a := by
  intro n
  induction n with
  | nil => intro start len _ a ha; simp [scaleSeg] at ha
  | cons x xs ih =>
    intro start len hn a ha
    cases start with
    | zero =>
      cases len with
      | zero => exact hn a (by simpa [scaleSeg] using ha)
      | succ l =>
        rw [scaleSeg] at ha
        rcases List.mem_cons.mp ha with h | h
        · exact h ▸ mul_nonneg (hn x (by simp)) hs
        · exact ih 0 l (fun b hb => hn b (by simp [hb])) a h
    | succ st2 =>
      rw [scaleSeg] at ha
      rcases List.mem_cons.mp ha with h | h
      · exact h ▸ hn x (by simp)
      · exact ih st2 len (fun b hb => hn b (by simp [hb])) a h

/-- The elementwise sum of two non-negative vectors is non-negative. -/
lemma nonneg_zipWith_add :
    ∀ (a b : List ℚ), (∀ x ∈ a, 0 ≤ x) → (∀ x ∈ b, 0 ≤ x) →
      ∀ x ∈ List.zipWith (· + ·) a b, 0 ≤ x := by
  intro a
  induction a with
  | nil => intro b _ _ x hx; simp at hx
  | cons u us ih =>
    intro b ha hb x hx
    cases b with
    | nil => simp at hx
    | cons v vs =>
      rcases List.mem_cons.mp hx with h | h
      · exact h ▸ add_nonneg (ha u (by simp)) (hb v (by simp))
      · exact ih vs (fun y hy => ha y (by simp [hy])) (fun y hy => hb y (by simp [hy])) x h

/-- A successful `setSpeciesAmount` preserves the state invariant. -/
lemma setSpeciesAmount_invariant {st st2 : ChemicalState} {i : Nat} {amt : ℚ}
    (hInv : StateInvariant st) (h : st.setSpeciesAmount i amt = .ok st2) :
    StateInvariant st2 := by
  unfold ChemicalState.setSpeciesAmount at h
  split at h
  · exact absurd h (by simp)
  · split at h
    · exact absurd h (by simp)
    · simp only [Except.ok.injEq] at h
      subst h
      exact ⟨hInv.1, hInv.2.1, nonneg_set hInv.2.2 (le_of_not_lt (by assumption))⟩

/-- A successful `scaleSpeciesAmounts` preserves the state invariant. -/
lemma scaleSpeciesAmounts_invariant {st st2 : ChemicalState} {s : ℚ}
    (hInv : StateInvariant st) (h : st.scaleSpeciesAmounts s = .ok st2) :
    StateInvariant st2 := by
  unfold ChemicalState.scaleSpeciesAmounts at h
  split at h
  · exact absurd h (by simp)
  · simp only [Except.ok.injEq] at h
    subst h
    refine ⟨hInv.1, hInv.2.1, fun x hx => ?_⟩
    rcases List.mem_map.mp hx with ⟨a, ha, rfl⟩
    exact mul_nonneg (hInv.2.2 a ha) (le_of_not_lt (by assumption))

/-- A successful `scaleSpeciesAmountsInPhase` preserves the state invariant. -/
lemma scaleSpeciesAmountsInPhase_invariant {st st2 : ChemicalState} {i : Nat} {s : ℚ}
    (hInv : StateInvariant st) (h : st.scaleSpeciesAmountsInPhase i s = .ok st2) :
    StateInvariant st2 := by
  unfold ChemicalState.scaleSpeciesAmountsInPhase at h
  split at h
  · exact absurd h (by simp)
  · split at h
    · exact absurd h (by simp)
    · split at h
      · simp only [Except.ok.injEq] at h
        subst h
        exact ⟨hInv.1, hInv.2.1,
          nonneg_scaleSeg (le_of_not_lt (by assumption)) st.n _ _ hInv.2.2⟩
      · exact absurd h (by simp)

/-! ### The claims -/

/-- C2: every mutator call that fails its validation produces the error
before any state is built (the `Except` embedding returns `.error` with no
successor state, so nothing is mutated); in particular `setSpeciesAmounts(n)`
with a vector whose length differs from the number of species always fails
with the dimension-mismatch error, and never returns a state. -/
theorem claimC2 (st : ChemicalState) (v : List ℚ)
    (hv : v.length ≠ st.system.numSpecies) :
    st.setSpeciesAmounts v = Except.error Err.dimension ∧
    (∀ st2, st.setSpeciesAmounts v ≠ Except.ok st2) ∧
    (∀ amt : ℚ, amt < 0 → ∀ i, st.setSpeciesAmount i amt = Except.error Err.validation) ∧
    (∀ i, st.system.numSpecies ≤ i → ∀ amt : ℚ, 0 ≤ amt →
      st.setSpeciesAmount i amt = Except.error Err.validation) ∧
    (∀ val : ℚ, val ≤ 0 → st.setTemperature val = Except.error Err.validation) ∧
    (∀ val : ℚ, val ≤ 0 → st.setPressure val = Except.error Err.validation) ∧
    (∀ s : ℚ, s < 0 → st.scaleSpeciesAmounts s = Except.error Err.validation) := by
  refine ⟨?_, ?_, ?_, ?_, ?_, ?_, ?_⟩
  · simp [ChemicalState.setSpeciesAmounts, hv]
  · intro st2 h
    simp [ChemicalState.setSpeciesAmounts, hv] at h
  · intro amt hamt i
    simp [ChemicalState.setSpeciesAmount, hamt]
  · intro i hi amt hamt
    simp [ChemicalState.setSpeciesAmount, not_lt.mpr hamt, hi]
  · intro val hval
    simp [ChemicalState.setTemperature, not_lt.mpr hval]
  · intro val hval
    simp [ChemicalState.setPressure, not_lt.mpr hval]
  · intro s hs
    simp [ChemicalState.scaleSpeciesAmounts, hs]

/-- Witness for C2 at a concrete input: the empty amount vector on the
one-species state `st0`. -/
theorem claimC2witness :
    ([] : List ℚ).length ≠ st0.system.numSpecies ∧
    st0.setSpeciesAmounts [] = Except.error Err.dimension :=
  ⟨by decide, (claimC2 st0 [] (by decide)).1⟩

/-- C4: `state1 + state2` returns a state whose amounts are the elementwise
sum of both operands' amounts and whose temperature, pressure and multiplier
vectors are exactly those of the left operand (the embedding is functional,
so the operands themselves are unchanged by construction). -/
theorem claimC4 (l r : ChemicalState) (hl : l.n.length = l.system.numSpecies)
    (hr : r.n.length = l.n.length) :
    addStates l r =
      Except.ok ⟨l.system, l.T, l.P, List.zipWith (· + ·) l.n r.n, l.y, l.z⟩ := by
  unfold addStates ChemicalState.setSpeciesAmounts
  rw [if_pos]
  rw [List.length_zipWith, hr, min_self, hl]

/-- Witness for C4: summing the one-species state `st0` with itself. -/
theorem claimC4witness :
    st0.n.length = st0.system.numSpecies ∧ st0.n.length = st0.n.length ∧
    addStates st0 st0 =
      Except.ok ⟨st0.system, st0.T, st0.P, List.zipWith (· + ·) st0.n st0.n, st0.y, st0.z⟩ :=
  ⟨by decide, rfl, claimC4 st0 st0 (by decide) rfl⟩

/-- C6: `scaleSpeciesAmounts(s)` with `s ≥ 0` multiplies every amount entry
by `s` and leaves T, P, y, z unchanged; with `s < 0` it always fails with a
validation error (and, in the `Except` embedding, returns no state). -/
theorem claimC6 (st : ChemicalState) (s : ℚ) :
    (0 ≤ s → st.scaleSpeciesAmounts s =
      Except.ok ⟨st.system, st.T, st.P, st.n.map (· * s), st.y, st.z⟩) ∧
    (s < 0 → st.scaleSpeciesAmounts s = Except.error Err.validation) := by
  constructor
  · intro hs
    unfold ChemicalState.scaleSpeciesAmounts
    rw [if_neg (not_lt.mpr hs)]
  · intro hs
    unfold ChemicalState.scaleSpeciesAmounts
    rw [if_pos hs]

/-- Witness for C6: scaling the one-species state `st0` by 2. -/
theorem claimC6witness :
    (0 : ℚ) ≤ 2 ∧ st0.scaleSpeciesAmounts 2 =
      Except.ok ⟨st0.system, st0.T, st0.P, st0.n.map (· * 2), st0.y, st0.z⟩ :=
  ⟨by norm_num, (claimC6 st0 2).1 (by norm_num)⟩

/-- C10: at the public extract interface, an `a[name]` query with an unknown
species name, and a `pH` query on a system without a species named `H+`, do
not fail with a lookup error: the species index is looked up without
validation (returning the number of species) and the activity vector is
indexed out of range, reaching the `Err.outOfRange` branch of the embedding's
`Option`-returning indexing. -/
theorem claimC10 :
    extract cv0 lg0 st0 "a[NaCl]" = Except.error Err.outOfRange ∧
    extract cv0 lg0 st0 "pH" = Except.error Err.outOfRange ∧
    st0.system.indexSpecies "NaCl" = st0.system.numSpecies ∧
    st0.system.indexSpecies "H+" = st0.system.numSpecies ∧
    Err.outOfRange ≠ Err.lookup :=
  ⟨rfl, rfl, rfl, rfl, by decide⟩

/-- C9: `extract` is deterministic and read-only: evaluating the same
expression twice against the same state yields the same value, and the result
depends only on the state fields actually read (system, T, P, n) — two
states differing only in the multiplier vectors y and z extract identically,
and the embedding, taking the state by value, cannot modify it. -/
theorem claimC9 (convert : ℚ → String → String → ℚ) (log10 : ℚ → ℚ)
    (sys : ChemicalSystem) (T P : ℚ) (n y z y2 z2 : List ℚ) (e : String) :
    (∀ st : ChemicalState, extract convert log10 st e = extract convert log10 st e) ∧
    extract convert log10 ⟨sys, T, P, n, y, z⟩ e =
      extract convert log10 ⟨sys, T, P, n, y2, z2⟩ e :=
  ⟨fun _ => rfl, rfl⟩

/-- Membership in the equilibrium set of `allEquilibriumExcept`: exactly the
valid indices outside both given collections. -/
lemma mem_allEquilibriumExcept (sys : ChemicalSystem) (K I : List Nat) (i : Nat) :
    i ∈ (Partition.allEquilibriumExcept sys K I).equilibriumSpeciesIndices ↔
      i < sys.numSpecies ∧ i ∉ K ∧ i ∉ I := by
  simp [Partition.allEquilibriumExcept, difference, unify, range, not_or]
  tauto

/-- C5: `Partition::allEquilibriumExcept(system, K, I)` (K, I disjoint, all
indices valid) passes K and I through unchanged, sets the equilibrium
collection to exactly `{0..N-1}` minus `K ∪ I`, hence the equilibrium set is
disjoint from K and I and the three sets together cover the full species
index range. -/
theorem claimC5 (sys : ChemicalSystem) (K I : List Nat)
    (hK : ∀ i ∈ K, i < sys.numSpecies) (hI : ∀ i ∈ I, i < sys.numSpecies)
    (hdisj : ∀ i ∈ K, i ∉ I) :
    (Partition.allEquilibriumExcept sys K I).kineticSpeciesIndices = K ∧
    (Partition.allEquilibriumExcept sys K I).inertSpeciesIndices = I ∧
    (∀ i, i ∈ (Partition.allEquilibriumExcept sys K I).equilibriumSpeciesIndices ↔
      i < sys.numSpecies ∧ i ∉ K ∧ i ∉ I) ∧
    (∀ i ∈ (Partition.allEquilibriumExcept sys K I).equilibriumSpeciesIndices,
      i ∉ K ∧ i ∉ I) ∧
    (∀ i, (i ∈ (Partition.allEquilibriumExcept sys K I).equilibriumSpeciesIndices ∨
      i ∈ K ∨ i ∈ I) ↔ i < sys.numSpecies) := by
  refine ⟨rfl, rfl, mem_allEquilibriumExcept sys K I, ?_, ?_⟩
  · intro i hi
    exact ((mem_allEquilibriumExcept sys K I i).mp hi).2
  · intro i
    constructor
    · rintro (h | h | h)
      · exact ((mem_allEquilibriumExcept sys K I i).mp h).1
      · exact hK i h
      · exact hI i h
    · intro hi
      by_cases hiK : i ∈ K
      · exact Or.inr (Or.inl hiK)
      · by_cases hiI : i ∈ I
        · exact Or.inr (Or.inr hiI)
        · exact Or.inl ((mem_allEquilibriumExcept sys K I i).mpr ⟨hi, hiK, hiI⟩)

/-- Witness for C5: a five-species system with kinetic = {1}, inert = {3}. -/
theorem claimC5witness :
    (∀ i ∈ [1], i < sys5.numSpecies) ∧ (∀ i ∈ [3], i < sys5.numSpecies) ∧
    (∀ i ∈ [1], i ∉ [3]) ∧
    (Partition.allEquilibriumExcept sys5 [1] [3]).kineticSpeciesIndices = [1] ∧
    (Partition.allEquilibriumExcept sys5 [1] [3]).inertSpeciesIndices = [3] ∧
    (∀ i, (i ∈ (Partition.allEquilibriumExcept sys5 [1] [3]).equilibriumSpeciesIndices ∨
      i ∈ [1] ∨ i ∈ [3]) ↔ i < sys5.numSpecies) := by
  have h := claimC5 sys5 [1] [3] (by decide) (by decide) (by decide)
  exact ⟨by decide, by decide, by decide, h.1, h.2.1, h.2.2.2.2⟩

/-- Time clipping of the solve loop: with positive step seed and enough fuel,
the loop stops exactly at t1. -/
lemma solveLoop_time (stepFn : ChemicalState → ℚ → ℚ → ChemicalState) (t1 dt : ℚ)
    (hdt : 0 < dt) :
    ∀ (fuel : Nat) (st : ChemicalState) (t : ℚ), t ≤ t1 → t1 - t ≤ (fuel : ℚ) * dt →
      (solveLoop stepFn fuel st t t1 dt).2 = t1 := by
  intro fuel
  induction fuel with
  | zero =>
    intro st t ht hle
    rw [solveLoop]
    simp only [Nat.cast_zero, zero_mul] at hle
    show t = t1
    linarith
  | succ f ih =>
    intro st t ht hle
    rw [solveLoop]
    split
    · show t = t1
      linarith [show t1 ≤ t by assumption]
    · apply ih
      · have h1 : min dt (t1 - t) ≤ t1 - t := min_le_right _ _
        linarith
      · rcases le_total dt (t1 - t) with h | h
        · rw [min_eq_left h]
          push_cast at hle ⊢
          linarith
        · rw [min_eq_right h]
          have h2 : (0 : ℚ) ≤ (f : ℚ) * dt := by positivity
          linarith

/-- Element-mass conservation of the solve loop: if one step conserves the
per-element totals, the whole loop does. -/
lemma solveLoop_mass (stepFn : ChemicalState → ℚ → ℚ → ChemicalState)
    (hstep : ∀ s t d, (stepFn s t d).elementAmounts = s.elementAmounts) :
    ∀ (fuel : Nat) (st : ChemicalState) (t t1 dt : ℚ),
      (solveLoop stepFn fuel st t t1 dt).1.elementAmounts = st.elementAmounts := by
  intro fuel
  induction fuel with
  | zero => intro st t t1 dt; rfl
  | succ f ih =>
    intro st t t1 dt
    rw [solveLoop]
    split
    · rfl
    · rw [ih, hstep]

/-- C3 (spec-modelled): for `t0 ≤ t1` and `dt > 0`, after
`solve(state, t0, t1, dt)` the reported time equals t1 exactly (the final
step is clipped, never overshooting), and when the per-step engine conserves
every element's total amount (the closed-system discipline of §4.3 step 4-5),
the element totals after the run equal those before it. -/
theorem claimC3 (stepFn : ChemicalState → ℚ → ℚ → ChemicalState) (st : ChemicalState)
    (t0 t1 dt : ℚ) (hdt : 0 < dt) (ht : t0 ≤ t1)
    (hstep : ∀ s t d, (stepFn s t d).elementAmounts = s.elementAmounts) :
    (solve stepFn st t0 t1 dt).2 = t1 ∧
    (solve stepFn st t0 t1 dt).1.elementAmounts = st.elementAmounts := by
  constructor
  · unfold solve
    apply solveLoop_time stepFn t1 dt hdt _ st t0 ht
    have h1 : (t1 - t0) / dt ≤ (⌈(t1 - t0) / dt⌉₊ : ℚ) := Nat.le_ceil _
    have h3 : (t1 - t0) / dt * dt ≤ (⌈(t1 - t0) / dt⌉₊ : ℚ) * dt :=
      mul_le_mul_of_nonneg_right h1 (le_of_lt hdt)
    rw [div_mul_cancel₀ _ (ne_of_gt hdt)] at h3
    push_cast
    linarith
  · exact solveLoop_mass stepFn hstep _ st t0 t1 dt

/-- Witness for C3: the identity step engine on `st0` over `[0, 1]` with seed
step 1/2. -/
theorem claimC3witness :
    (0 : ℚ) < 1/2 ∧ (0 : ℚ) ≤ 1 ∧
    (solve (fun s _ _ => s) st0 0 1 (1/2)).2 = 1 ∧
    (solve (fun s _ _ => s) st0 0 1 (1/2)).1.elementAmounts = st0.elementAmounts := by
  have h := claimC3 (fun s _ _ => s) st0 0 1 (1/2) (by norm_num) (by norm_num)
    (fun _ _ _ => rfl)
  exact ⟨by norm_num, by norm_num, h.1, h.2⟩

/-- C7: on a state whose system contains a species named `H+`,
`extract(state, "pH")` returns minus the base-10 logarithm of the activity of
that species evaluated at the state's current (T, P, n), provided the
activity model honours its contract of returning one activity per species. -/
theorem claimC7 (convert : ℚ → String → String → ℚ) (log10 : ℚ → ℚ)
    (st : ChemicalState) (hmem : ∃ sp ∈ st.system.species, sp.name = "H+")
    (hlen : (st.system.activities st.T st.P st.n).length = st.system.numSpecies) :
    extract convert log10 st "pH" =
      Except.ok (-(log10 ((st.system.activities st.T st.P st.n).getD
        (st.system.indexSpecies "H+") 0))) ∧
    ∃ sp, st.system.species[st.system.indexSpecies "H+"]? = some sp ∧ sp.name = "H+" := by
  have hi : st.system.indexSpecies "H+" < st.system.numSpecies := by
    apply List.findIdx_lt_length_of_exists
    rcases hmem with ⟨sp, hsp, hname⟩
    exact ⟨sp, hsp, by simp [hname]⟩
  have hi2 : st.system.indexSpecies "H+" < (st.system.activities st.T st.P st.n).length := by
    rw [hlen]; exact hi
  constructor
  · have hstep : extract convert log10 st "pH" =
        match (st.system.activities st.T st.P st.n)[st.system.indexSpecies "H+"]? with
        | some aH => Except.ok (-(log10 aH))
        | none => Except.error Err.outOfRange := rfl
    rw [hstep, List.getElem?_eq_getElem hi2, List.getD_eq_getElem _ _ hi2]
  · have hi3 : st.system.species.findIdx (fun s => s.name = "H+") < st.system.species.length :=
      hi
    refine ⟨st.system.species.get ⟨st.system.indexSpecies "H+", hi⟩, ?_, ?_⟩
    · rw [List.getElem?_eq_getElem hi]
      simp
    · have hfind := @List.findIdx_getElem Species (fun s => decide (s.name = "H+"))
        st.system.species hi3
      simpa using hfind

/-- Witness for C7: the two-species system `sysH` containing `H+`. -/
theorem claimC7witness :
    (∃ sp ∈ stH.system.species, sp.name = "H+") ∧
    (stH.system.activities stH.T stH.P stH.n).length = stH.system.numSpecies ∧
    extract cv0 lg0 stH "pH" =
      Except.ok (-(lg0 ((stH.system.activities stH.T stH.P stH.n).getD
        (stH.system.indexSpecies "H+") 0))) := by
  have h := claimC7 cv0 lg0 stH ⟨⟨"H+", 0.001007⟩, by norm_num [stH, sysH], rfl⟩ rfl
  exact ⟨⟨⟨"H+", 0.001007⟩, by norm_num [stH, sysH], rfl⟩, rfl, h.1⟩

/-- Counterexample to C1 as stated: `setSpeciesAmounts` with a vector of the
right dimension but a negative entry succeeds (the vector overload checks
only the dimension), leaving a negative amount in the state — so the n ≥ 0
invariant does not survive every successful mutation through the listed
mutators. -/
theorem claimC1counterexample :
    st0.setSpeciesAmounts [(-1 : ℚ)] =
      Except.ok ⟨sys0, st0.T, st0.P, [(-1 : ℚ)], st0.y, st0.z⟩ ∧
    ((-1 : ℚ) < 0) ∧
    ¬ StateInvariant ⟨sys0, st0.T, st0.P, [(-1 : ℚ)], st0.y, st0.z⟩ := by
  refine ⟨rfl, by norm_num, fun h => ?_⟩
  have h2 := h.2.2 (-1) (by simp)
  norm_num at h2

/-- C1 (amended): starting from a state satisfying the invariant (T > 0,
P > 0, n ≥ 0 componentwise), every successful mutation through the listed
mutators preserves the invariant, with the exception of the two vector
overloads of `setSpeciesAmounts`, which assign the given entries without any
sign check and therefore preserve n ≥ 0 only when the given vector is itself
componentwise non-negative.  A freshly constructed state satisfies the
invariant. -/
theorem claimC1amended (st : ChemicalState) (hInv : StateInvariant st) :
    (∀ sys, StateInvariant (ChemicalState.ofSystem sys)) ∧
    (∀ val st2, st.setSpeciesAmountsScalar val = .ok st2 → StateInvariant st2) ∧
    (∀ v st2, (∀ x ∈ v, (0 : ℚ) ≤ x) → st.setSpeciesAmounts v = .ok st2 →
      StateInvariant st2) ∧
    (∀ v idx st2, (∀ x ∈ v, (0 : ℚ) ≤ x) →
      st.setSpeciesAmountsWithIndices v idx = .ok st2 → StateInvariant st2) ∧
    (∀ i amt st2, st.setSpeciesAmount i amt = .ok st2 → StateInvariant st2) ∧
    (∀ name amt st2, st.setSpeciesAmountByName name amt = .ok st2 → StateInvariant st2) ∧
    (∀ cb cv i amt u st2, st.setSpeciesAmountWithUnits cb cv i amt u = .ok st2 →
      StateInvariant st2) ∧
    (∀ vol st2, st.setVolume vol = .ok st2 → StateInvariant st2) ∧
    (∀ i vol st2, st.setPhaseVolume i vol = .ok st2 → StateInvariant st2) ∧
    (∀ s st2, st.scaleSpeciesAmounts s = .ok st2 → StateInvariant st2) ∧
    (∀ i s st2, st.scaleSpeciesAmountsInPhase i s = .ok st2 → StateInvariant st2) ∧
    (∀ r st2, StateInvariant r → addStates st r = .ok st2 → StateInvariant st2) ∧
    (∀ s st2, smulState s st = .ok st2 → StateInvariant st2) ∧
    (∀ s st2, mulState st s = .ok st2 → StateInvariant st2) ∧
    (∀ val st2, st.setTemperature val = .ok st2 → StateInvariant st2) ∧
    (∀ val st2, st.setPressure val = .ok st2 → StateInvariant st2) := by
  refine ⟨?_, ?_, ?_, ?_, ?_, ?_, ?_, ?_, ?_, ?_, ?_, ?_, ?_, ?_, ?_, ?_⟩
  · intro sys
    refine ⟨by norm_num [ChemicalState.ofSystem], by norm_num [ChemicalState.ofSystem], ?_⟩
    intro x hx
    rw [List.eq_of_mem_replicate hx]
  · intro val st2 h
    unfold ChemicalState.setSpeciesAmountsScalar at h
    split at h
    · simp only [Except.ok.injEq] at h
      subst h
      refine ⟨hInv.1, hInv.2.1, fun x hx => ?_⟩
      rcases List.mem_map.mp hx with ⟨a, _, rfl⟩
      assumption
    · exact absurd h (by simp)
  · intro v st2 hv h
    unfold ChemicalState.setSpeciesAmounts at h
    split at h
    · simp only [Except.ok.injEq] at h
      subst h
      exact ⟨hInv.1, hInv.2.1, hv⟩
    · exact absurd h (by simp)
  · intro v idx st2 hv h
    unfold ChemicalState.setSpeciesAmountsWithIndices at h
    split at h
    · simp only [Except.ok.injEq] at h
      subst h
      exact ⟨hInv.1, hInv.2.1, nonneg_setRows idx v st.n hInv.2.2 hv⟩
    · exact absurd h (by simp)
  · intro i amt st2 h
    exact setSpeciesAmount_invariant hInv h
  · intro name amt st2 h
    unfold ChemicalState.setSpeciesAmountByName at h
    dsimp only at h
    split at h
    · exact setSpeciesAmount_invariant hInv h
    · exact absurd h (by simp)
  · intro cb cv i amt u st2 h
    unfold ChemicalState.setSpeciesAmountWithUnits at h
    split at h
    · exact setSpeciesAmount_invariant hInv h
    · split at h
      · split at h
        · exact setSpeciesAmount_invariant hInv h
        · exact absurd h (by simp)
      · exact absurd h (by simp)
  · intro vol st2 h
    unfold ChemicalState.setVolume at h
    split at h
    · exact absurd h (by simp)
    · exact scaleSpeciesAmounts_invariant hInv h
  · intro i vol st2 h
    unfold ChemicalState.setPhaseVolume at h
    split at h
    · exact absurd h (by simp)
    · split at h
      · exact absurd h (by simp)
      · dsimp only at h
        split at h
        · exact scaleSpeciesAmountsInPhase_invariant hInv h
        · exact absurd h (by simp)
  · intro s st2 h
    exact scaleSpeciesAmounts_invariant hInv h
  · intro i s st2 h
    exact scaleSpeciesAmountsInPhase_invariant hInv h
  · intro r st2 hr h
    unfold addStates ChemicalState.setSpeciesAmounts at h
    split at h
    · simp only [Except.ok.injEq] at h
      subst h
      exact ⟨hInv.1, hInv.2.1, nonneg_zipWith_add st.n r.n hInv.2.2 hr.2.2⟩
    · exact absurd h (by simp)
  · intro s st2 h
    exact scaleSpeciesAmounts_invariant hInv h
  · intro s st2 h
    exact scaleSpeciesAmounts_invariant hInv h
  · intro val st2 h
    unfold ChemicalState.setTemperature at h
    split at h
    · simp only [Except.ok.injEq] at h
      subst h
      exact ⟨by assumption, hInv.2.1, hInv.2.2⟩
    · exact absurd h (by simp)
  · intro val st2 h
    unfold ChemicalState.setPressure at h
    split at h
    · simp only [Except.ok.injEq] at h
      subst h
      exact ⟨hInv.1, by assumption, hInv.2.2⟩
    · exact absurd h (by simp)

/-- Witness for C1 (amended): the invariant holds for `st0` and survives a
concrete successful `scaleSpeciesAmounts`. -/
theorem claimC1witness :
    StateInvariant st0 ∧ StateInvariant ⟨sys0, st0.T, st0.P, st0.n.map (· * 2), st0.y, st0.z⟩ := by
  have hInv : StateInvariant st0 := by
    refine ⟨by norm_num [st0], by norm_num [st0], ?_⟩
    intro x hx
    have hx2 : x = 1 := by simpa [st0] using hx
    norm_num [hx2]
  refine ⟨hInv, ?_⟩
  have hok : st0.scaleSpeciesAmounts 2 =
      Except.ok ⟨sys0, st0.T, st0.P, st0.n.map (· * 2), st0.y, st0.z⟩ := by
    unfold ChemicalState.scaleSpeciesAmounts
    rw [if_neg (by norm_num)]
    rfl
  exact (claimC1amended st0 hInv).2.2.2.2.2.2.2.2.2.1 2 _ hok

/-- Counterexample to C8 as stated: with an amount-convertible unit but a
negative amount, `setSpeciesAmount(index, amount, units)` does not set the
converted amount — the inner `setSpeciesAmount` rejects the negative value
with a validation error. -/
theorem claimC8counterexample :
    cb0 "mol" "mol" = true ∧ (0 : Nat) < st0.system.numSpecies ∧
    st0.setSpeciesAmountWithUnits cb0 cv0 0 (-1) "mol" = Except.error Err.validation ∧
    ∀ st2, st0.setSpeciesAmountWithUnits cb0 cv0 0 (-1) "mol" ≠ Except.ok st2 := by
  have hval : st0.setSpeciesAmountWithUnits cb0 cv0 0 (-1) "mol" =
      Except.error Err.validation := rfl
  refine ⟨rfl, by decide, hval, ?_⟩
  intro st2 h
  rw [hval] at h
  exact absurd h (by simp)

/-- C8 (amended): for a valid species index, `setSpeciesAmount(index, amount,
units)` with an amount-convertible unit delegates the converted value to the
mol setter — which sets it when it is non-negative and fails validation when
it is negative; with a mass-convertible (but not amount-convertible) unit it
does the same with the kg-converted value divided by the species' molar
mass; with a unit convertible to neither it fails with the unit error, and
in the `Except` embedding no state is produced on failure. -/
theorem claimC8amended (cb : String → String → Bool) (cv : ℚ → String → String → ℚ)
    (st : ChemicalState) (i : Nat) (amt : ℚ) (u : String)
    (hi : i < st.system.numSpecies) :
    (cb u "mol" = true →
      (0 ≤ cv amt u "mol" → st.setSpeciesAmountWithUnits cb cv i amt u =
        Except.ok ⟨st.system, st.T, st.P, st.n.set i (cv amt u "mol"), st.y, st.z⟩) ∧
      (cv amt u "mol" < 0 → st.setSpeciesAmountWithUnits cb cv i amt u =
        Except.error Err.validation)) ∧
    (cb u "mol" = false → cb u "kg" = true →
      ∀ sp, st.system.species[i]? = some sp →
      (0 ≤ cv amt u "kg" / sp.molarMass → st.setSpeciesAmountWithUnits cb cv i amt u =
        Except.ok ⟨st.system, st.T, st.P, st.n.set i (cv amt u "kg" / sp.molarMass),
          st.y, st.z⟩) ∧
      (cv amt u "kg" / sp.molarMass < 0 → st.setSpeciesAmountWithUnits cb cv i amt u =
        Except.error Err.validation)) ∧
    (cb u "mol" = false → cb u "kg" = false →
      st.setSpeciesAmountWithUnits cb cv i amt u = Except.error Err.unitErr) := by
  refine ⟨?_, ?_, ?_⟩
  · intro hmol
    constructor
    · intro hc
      unfold ChemicalState.setSpeciesAmountWithUnits ChemicalState.setSpeciesAmount
      rw [if_pos (by simp [hmol]), if_neg (not_lt.mpr hc), if_neg (not_le.mpr hi)]
    · intro hc
      unfold ChemicalState.setSpeciesAmountWithUnits ChemicalState.setSpeciesAmount
      rw [if_pos (by simp [hmol]), if_pos hc]
  · intro hmol hkg sp hsp
    constructor
    · intro hc
      unfold ChemicalState.setSpeciesAmountWithUnits ChemicalState.setSpeciesAmount
      rw [if_neg (by simp [hmol]), if_pos (by simp [hkg]), hsp]
      dsimp only
      rw [if_neg (not_lt.mpr hc), if_neg (not_le.mpr hi)]
    · intro hc
      unfold ChemicalState.setSpeciesAmountWithUnits ChemicalState.setSpeciesAmount
      rw [if_neg (by simp [hmol]), if_pos (by simp [hkg]), hsp]
      dsimp only
      rw [if_pos hc]
  · intro hmol hkg
    unfold ChemicalState.setSpeciesAmountWithUnits
    rw [if_neg (by simp [hmol]), if_neg (by simp [hkg])]

/-- Witness for C8 (amended): setting 2 mol of the single species of `st0`
through the unit overload. -/
theorem claimC8witness :
    (0 : Nat) < st0.system.numSpecies ∧ cb0 "mol" "mol" = true ∧
    (0 : ℚ) ≤ cv0 2 "mol" "mol" ∧
    st0.setSpeciesAmountWithUnits cb0 cv0 0 2 "mol" =
      Except.ok ⟨st0.system, st0.T, st0.P, st0.n.set 0 (cv0 2 "mol" "mol"), st0.y, st0.z⟩ := by
  refine ⟨by decide, rfl, by norm_num [cv0], ?_⟩
  exact ((claimC8amended cb0 cv0 st0 0 2 "mol" (by decide)).1 rfl).1 (by norm_num [cv0])

end Reaktoro
